import Mathlib

/-!
Shallow embedding of the currency-converter rate-resolution pipeline
(src/services/externalApiService.ts, cacheService.ts, databaseServices.ts,
rateAggregatorService.ts).

Numbers are embedded as rationals (ℚ); JavaScript timestamps are opaque
strings supplied by the environment (`now`); the Redis cache is an
association list keyed by the cache key string; the Postgres history table
is a newest-first list (an INSERT conses, `ORDER BY created_at DESC LIMIT 1`
is `find?`).  Each stateful operation threads an explicit `Store` and an
`Effects` counter recording provider fetches, cache writes and history
writes performed by the call.
-/

/-- `ExternalAPIResponse` from src/types/apiTypes: the uniform provider
response shape `{success, rate, source, timestamp?}`. -/
structure ExternalAPIResponse where
  success : Bool
  rate : ℚ
  source : String
  timestamp : Option String := none
deriving Repr, DecidableEq

/-- Outcome of a settled promise, as produced by `Promise.allSettled`. -/
inductive Settled (α : Type) where
  | fulfilled (value : α)
  | rejected
deriving Repr, DecidableEq

/-- Outcome of an `axios.get` call: either the parsed payload, or a failure
(network error, timeout, HTTP error status, unparseable body) which the
surrounding `try`/`catch` absorbs. -/
inductive AxiosResult (α : Type) where
  | ok (data : α)
  | failure
deriving Repr, DecidableEq

/-- Fixer payload shape (`FixerResponse`): success flag, unix timestamp,
and a rates dictionary.  A key absent from the dictionary models
`rates[X] === undefined`. -/
structure FixerResponse where
  success : Bool
  timestamp : ℤ
  rates : List (String × ℚ)
deriving Repr, DecidableEq

/-- Frankfurter payload shape: a date string and a rates dictionary. -/
structure FrankfurterResponse where
  date : String
  rates : List (String × ℚ)
deriving Repr, DecidableEq

/-- One entry of the currencyapi `data` dictionary. -/
structure CurrencyAPIData where
  value : ℚ
deriving Repr, DecidableEq

/-- currencyapi payload shape: a `data` dictionary keyed by currency code. -/
structure CurrencyAPIResponse where
  data : List (String × CurrencyAPIData)
deriving Repr, DecidableEq

/-- JavaScript `String.prototype.toUpperCase()`, modelled character-wise
(list-based so that concrete evaluation reduces in the kernel). -/
def jsToUpperCase (s : String) : String :=
  ⟨s.data.map Char.toUpper⟩

/-- JavaScript dictionary lookup `dict[key]`, `undefined` as `none`. -/
def lookupRate (rates : List (String × ℚ)) (key : String) : Option ℚ :=
  (rates.find? (fun p => p.1 == key)).map Prod.snd

/-- JavaScript dictionary lookup for the currencyapi `data` object. -/
def lookupData (entries : List (String × CurrencyAPIData)) (key : String) :
    Option CurrencyAPIData :=
  (entries.find? (fun p => p.1 == key)).map Prod.snd

/-- Models `new Date(ms).toISOString()`: an injective rendering of the
numeric timestamp (the exact ISO text never matters to the pipeline). -/
def unixMillisToISOString (ms : ℤ) : String :=
  "epoch-ms:" ++ toString ms

/-- Models `new Date(dateText).toISOString()` on a provider-supplied date
string, kept as an abstract injection of its input. -/
def dateTextToISOString (s : String) : String :=
  s

/-- `ExternalAPIService.fetchFromFixer`: parse the Fixer payload; any axios
failure, non-success flag, or falsy rate (`!rate`: absent or zero) collapses
into `{success: false, rate: 0, source: "fixer"}`. -/
def fetchFromFixer (response : AxiosResult FixerResponse)
    (targetCurrency : String) : ExternalAPIResponse :=
  match response with
  | .failure => { success := false, rate := 0, source := "fixer" }
  | .ok d =>
    if !d.success then
      { success := false, rate := 0, source := "fixer" }
    else
      match lookupRate d.rates (jsToUpperCase targetCurrency) with
      | none => { success := false, rate := 0, source := "fixer" }
      | some rate =>
        if rate == 0 then
          { success := false, rate := 0, source := "fixer" }
        else
          { success := true, rate := rate, source := "fixer",
            timestamp := some (unixMillisToISOString (d.timestamp * 1000)) }

/-- `ExternalAPIService.fetchFromFrankfurter`: same absorption contract with
source `"frankfurter"`; the timestamp comes from the payload date. -/
def fetchFromFrankfurter (response : AxiosResult FrankfurterResponse)
    (targetCurrency : String) : ExternalAPIResponse :=
  match response with
  | .failure => { success := false, rate := 0, source := "frankfurter" }
  | .ok d =>
    match lookupRate d.rates (jsToUpperCase targetCurrency) with
    | none => { success := false, rate := 0, source := "frankfurter" }
    | some rate =>
      if rate == 0 then
        { success := false, rate := 0, source := "frankfurter" }
      else
        { success := true, rate := rate, source := "frankfurter",
          timestamp := some (dateTextToISOString d.date) }

/-- `ExternalAPIService.fetchFromCurrencyAPI`: absorption contract with
source `"currencyapi"`; a missing entry or falsy `value` fails; a success
carries no timestamp. -/
def fetchFromCurrencyAPI (response : AxiosResult CurrencyAPIResponse)
    (targetCurrency : String) : ExternalAPIResponse :=
  match response with
  | .failure => { success := false, rate := 0, source := "currencyapi" }
  | .ok d =>
    match lookupData d.data (jsToUpperCase targetCurrency) with
    | none => { success := false, rate := 0, source := "currencyapi" }
    | some targetData =>
      if targetData.value == 0 then
        { success := false, rate := 0, source := "currencyapi" }
      else
        { success := true, rate := targetData.value, source := "currencyapi" }

/-- The successful responses contributed by one settled provider call
(pushed onto `successfulResults` iff fulfilled with `success = true`). -/
def settledSuccesses (s : Settled ExternalAPIResponse) :
    List ExternalAPIResponse :=
  match s with
  | .fulfilled v => if v.success then [v] else []
  | .rejected => []

/-- The `successfulResults` array of `fetchRateWithAggregation`, in its
fixed collection order: fixer, then frankfurter, then currencyapi. -/
def succeededResponses (fixerResult openExchangeResult currencyApiResult :
    Settled ExternalAPIResponse) : List ExternalAPIResponse :=
  settledSuccesses fixerResult ++ settledSuccesses openExchangeResult ++
    settledSuccesses currencyApiResult

/-- JavaScript `Array.prototype.join(sep)` on a list of strings. -/
def jsJoin (sep : String) : List String → String
  | [] => ""
  | [x] => x
  | x :: xs => x ++ sep ++ jsJoin sep xs

/-- `ExternalAPIService.fetchRateWithAggregation`: settle all three provider
calls, keep the fulfilled successes, and either report total failure
(`source = "none"`) or average the rates and join the source names.
`now` models `new Date().toISOString()` at the aggregation site. -/
def fetchRateWithAggregation (now : String)
    (fixerResult openExchangeResult currencyApiResult :
      Settled ExternalAPIResponse) : ExternalAPIResponse :=
  let successfulResults : List ExternalAPIResponse :=
    succeededResponses fixerResult openExchangeResult currencyApiResult
  if successfulResults.length = 0 then
    { success := false, rate := 0, source := "none" }
  else
    let averageRate : ℚ :=
      successfulResults.foldl (fun sum r => sum + r.rate) 0 /
        (successfulResults.length : ℚ)
    let sources := jsJoin "+" (successfulResults.map (·.source))
    { success := true, rate := averageRate,
      source := "aggregated(" ++ sources ++ ")", timestamp := some now }

/-- `CachedRate` from cacheService.ts. -/
structure CachedRate where
  baseCurrency : String
  targetCurrency : String
  rate : ℚ
  source : String
  timestamp : String
deriving Repr, DecidableEq

/-- `ExchangeRate` row from databaseServices.ts (the persisted history
record); `createdAt` is the insertion instant rendered as a string. -/
structure ExchangeRate where
  baseCurrency : String
  targetCurrency : String
  rate : ℚ
  source : String
  createdAt : String
deriving Repr, DecidableEq

/-- The two stores the resolver touches: the Redis cache (association list
keyed by cache key) and the Postgres history table (newest first). -/
structure Store where
  cache : List (String × CachedRate)
  history : List ExchangeRate
deriving Repr, DecidableEq

/-- `CacheService.getCacheKey`. -/
def getCacheKey (base target : String) : String :=
  "rate:" ++ (jsToUpperCase base) ++ ":" ++ (jsToUpperCase target)

/-- `CacheService.getRate`: read the cache entry for the pair's key. -/
def cacheGetRate (st : Store) (baseCurrency targetCurrency : String) :
    Option CachedRate :=
  (st.cache.find? (fun p => p.1 == getCacheKey baseCurrency targetCurrency)).map
    Prod.snd

/-- `CacheService.setRate`: overwrite the pair's key with a fresh entry
stamped `now` (Redis `setex` replaces the previous value under the key). -/
def cacheSetRate (st : Store) (now : String)
    (baseCurrency targetCurrency : String) (rate : ℚ) (source : String) :
    Store :=
  let key := getCacheKey baseCurrency targetCurrency
  let data : CachedRate :=
    { baseCurrency := (jsToUpperCase baseCurrency),
      targetCurrency := (jsToUpperCase targetCurrency),
      rate := rate, source := source, timestamp := now }
  { st with cache := (key, data) :: st.cache.filter (fun p => !(p.1 == key)) }

/-- `DatabaseService.saveRate`: append-only INSERT of a history row,
returning the inserted row. -/
def dbSaveRate (st : Store) (now : String)
    (baseCurrency targetCurrency : String) (rate : ℚ) (source : String) :
    Store × ExchangeRate :=
  let row : ExchangeRate :=
    { baseCurrency := (jsToUpperCase baseCurrency),
      targetCurrency := (jsToUpperCase targetCurrency),
      rate := rate, source := source, createdAt := now }
  ({ st with history := row :: st.history }, row)

/-- `DatabaseService.getLatestRate`: newest matching row for the pair
(`ORDER BY created_at DESC LIMIT 1` on the newest-first list). -/
def dbGetLatestRate (st : Store) (baseCurrency targetCurrency : String) :
    Option ExchangeRate :=
  st.history.find? (fun r =>
    r.baseCurrency == (jsToUpperCase baseCurrency) &&
      r.targetCurrency == (jsToUpperCase targetCurrency))

/-- `ConversionResult` from rateAggregatorService.ts. -/
structure ConversionResult where
  baseCurrency : String
  targetCurrency : String
  rate : ℚ
  amount : Option ℚ := none
  convertedAmount : Option ℚ := none
  source : String
  timestamp : String
  fromCache : Bool
deriving Repr, DecidableEq

/-- Side-effect counters for one resolver call: provider fetches launched,
cache writes and history writes performed. -/
structure Effects where
  providerFetches : ℕ
  cacheWrites : ℕ
  historyWrites : ℕ
deriving Repr, DecidableEq

/-- The environment one resolver call runs in: the settled outcome each
provider call would produce, and the current wall-clock instant. -/
structure Env where
  fixerResult : Settled ExternalAPIResponse
  frankfurterResult : Settled ExternalAPIResponse
  currencyApiResult : Settled ExternalAPIResponse
  now : String

/-- JavaScript `x || fallback` on an optional string (`undefined` and `""`
are falsy). -/
def jsOrElse (x : Option String) (fallback : String) : String :=
  match x with
  | some s => if s == "" then fallback else s
  | none => fallback

/-- `RateAggregatorService.checkCache`: on a hit, copy the cached fields
into a cache-origin result (the TTL read is observational only). -/
def checkCache (st : Store) (base target : String) : Option ConversionResult :=
  match cacheGetRate st base target with
  | none => none
  | some cached =>
    some { baseCurrency := cached.baseCurrency,
           targetCurrency := cached.targetCurrency,
           rate := cached.rate, source := cached.source,
           timestamp := cached.timestamp, fromCache := true }

/-- `RateAggregatorService.fetchFromAPIs`: aggregate across the three
providers; on success write through to cache and history, then build the
fresh (non-cache) result. -/
def fetchFromAPIs (env : Env) (st : Store) (base target : String) :
    Option ConversionResult × Store × Effects :=
  let apiResult := fetchRateWithAggregation env.now env.fixerResult
    env.frankfurterResult env.currencyApiResult
  if !apiResult.success then
    (none, st, ⟨3, 0, 0⟩)
  else
    let st1 := cacheSetRate st env.now base target apiResult.rate
      apiResult.source
    let st2 := (dbSaveRate st1 env.now base target apiResult.rate
      apiResult.source).1
    (some { baseCurrency := base, targetCurrency := target,
            rate := apiResult.rate, source := apiResult.source,
            timestamp := jsOrElse apiResult.timestamp env.now,
            fromCache := false },
     st2, ⟨3, 1, 1⟩)

/-- `RateAggregatorService.fetchFromDatabase`: stale fallback from the
latest persisted row, source suffixed `" (stale)"`; no write. -/
def fetchFromDatabase (st : Store) (base target : String) :
    Option ConversionResult :=
  match dbGetLatestRate st base target with
  | none => none
  | some latestRate =>
    some { baseCurrency := latestRate.baseCurrency,
           targetCurrency := latestRate.targetCurrency,
           rate := latestRate.rate,
           source := latestRate.source ++ " (stale)",
           timestamp := latestRate.createdAt, fromCache := false }

/-- `RateAggregatorService.getExchangeRate`: the three-tier fallback chain
cache → aggregation (with write-through) → stale history, throwing only
when all three tiers come up empty. -/
def getExchangeRate (env : Env) (st : Store)
    (baseCurrency targetCurrency : String) :
    Except String ConversionResult × Store × Effects :=
  let base := (jsToUpperCase baseCurrency)
  let target := (jsToUpperCase targetCurrency)
  match checkCache st base target with
  | some cachedRate => (Except.ok cachedRate, st, ⟨0, 0, 0⟩)
  | none =>
    match fetchFromAPIs env st base target with
    | (some apiRate, st2, eff) => (Except.ok apiRate, st2, eff)
    | (none, st2, eff) =>
      match fetchFromDatabase st2 base target with
      | some dbRate => (Except.ok dbRate, st2, eff)
      | none =>
        (Except.error
          ("Unable to fetch exchange rate for " ++ base ++ " → " ++ target),
         st2, eff)

/-- JavaScript `Math.round`: round half toward positive infinity. -/
def jsRound (q : ℚ) : ℤ :=
  ⌊q + 1 / 2⌋

/-- `RateAggregatorService.convertCurrency`: resolve the rate, multiply by
the amount and round to 2 decimal places; a resolution failure propagates
unchanged. -/
def convertCurrency (env : Env) (st : Store)
    (baseCurrency targetCurrency : String) (amount : ℚ) :
    Except String ConversionResult × Store × Effects :=
  match getExchangeRate env st baseCurrency targetCurrency with
  | (Except.ok rateResult, st2, eff) =>
    let convertedAmount := amount * rateResult.rate
    (Except.ok { rateResult with
        amount := some amount,
        convertedAmount := some ((jsRound (convertedAmount * 100) : ℚ) / 100) },
     st2, eff)
  | (Except.error e, st2, eff) => (Except.error e, st2, eff)

/-- A settled provider outcome whose successful value (if any) carries a
positive rate. -/
def settledPositive : Settled ExternalAPIResponse → Prop
  | .fulfilled v => v.success = true → 0 < v.rate
  | .rejected => True

/-! ## Helper lemmas -/

/-- On a cache hit, `getExchangeRate` copies the cached fields, leaves the
store untouched and performs no effects. -/
theorem getExchangeRate_cacheHit_eq (env : Env) (st : Store)
    (bc tc : String) (cached : CachedRate)
    (hhit : cacheGetRate st (jsToUpperCase bc) (jsToUpperCase tc) = some cached) :
    getExchangeRate env st bc tc =
      (Except.ok
        { baseCurrency := cached.baseCurrency,
          targetCurrency := cached.targetCurrency,
          rate := cached.rate, source := cached.source,
          timestamp := cached.timestamp, fromCache := true },
       st, ⟨0, 0, 0⟩) := by
  simp [getExchangeRate, checkCache, hhit]

/-- The `reduce`-style fold over rates equals the sum of the mapped rates. -/
theorem foldl_rate_eq_sum (l : List ExternalAPIResponse) (acc : ℚ) :
    l.foldl (fun sum r => sum + r.rate) acc = acc + (l.map (·.rate)).sum := by
  induction l generalizing acc with
  | nil => simp
  | cons a t ih => simp [List.foldl, ih]; ring

/-- Aggregation with no fulfilled success returns the `"none"` sentinel. -/
theorem agg_fail_eq (now : String) (f fr ca : Settled ExternalAPIResponse)
    (h : succeededResponses f fr ca = []) :
    fetchRateWithAggregation now f fr ca =
      { success := false, rate := 0, source := "none", timestamp := none } := by
  simp [fetchRateWithAggregation, h]

/-- Aggregation with at least one fulfilled success averages the rates and
joins the source names. -/
theorem agg_success_eq (now : String) (f fr ca : Settled ExternalAPIResponse)
    (h : succeededResponses f fr ca ≠ []) :
    fetchRateWithAggregation now f fr ca =
      { success := true,
        rate := ((succeededResponses f fr ca).map (·.rate)).sum /
          ((succeededResponses f fr ca).length : ℚ),
        source := "aggregated(" ++ jsJoin "+"
          ((succeededResponses f fr ca).map (·.source)) ++ ")",
        timestamp := some now } := by
  have hlen : (succeededResponses f fr ca).length ≠ 0 := by
    simpa [List.length_eq_zero] using h
  simp [fetchRateWithAggregation, hlen, foldl_rate_eq_sum]

/-- Aggregation reports success exactly when some provider settled with a
successful response. -/
theorem agg_success_iff (now : String) (f fr ca : Settled ExternalAPIResponse) :
    (fetchRateWithAggregation now f fr ca).success = true ↔
      succeededResponses f fr ca ≠ [] := by
  by_cases h : succeededResponses f fr ca = []
  · simp [agg_fail_eq now f fr ca h, h]
  · simp [agg_success_eq now f fr ca h, h]

/-! ## Claim theorems -/

/-- C1: for every pair whose normalized key has a cache entry present,
`getExchangeRate` returns the cached entry's rate, source and timestamp
unchanged with `fromCache = true`, leaves both stores untouched, and
performs no provider fetch, no cache write and no history write. -/
theorem cache_hit_serves_cached_entry (env : Env) (st : Store)
    (bc tc : String) (cached : CachedRate)
    (hhit : cacheGetRate st (jsToUpperCase bc) (jsToUpperCase tc) = some cached) :
    getExchangeRate env st bc tc =
      (Except.ok
        { baseCurrency := cached.baseCurrency,
          targetCurrency := cached.targetCurrency,
          rate := cached.rate, source := cached.source,
          timestamp := cached.timestamp, fromCache := true },
       st, ⟨0, 0, 0⟩) :=
  getExchangeRate_cacheHit_eq env st bc tc cached hhit

/-- Witness for C1 at a concrete warm cache entry. -/
theorem cache_hit_serves_cached_entry_witness :
    cacheGetRate
        ⟨[("rate:USD:EUR", ⟨"USD", "EUR", (9 : ℚ) / 10, "fixer", "t1"⟩)], []⟩
        (jsToUpperCase "usd") (jsToUpperCase "eur") =
      some ⟨"USD", "EUR", (9 : ℚ) / 10, "fixer", "t1"⟩ ∧
    getExchangeRate ⟨.rejected, .rejected, .rejected, "t2"⟩
        ⟨[("rate:USD:EUR", ⟨"USD", "EUR", (9 : ℚ) / 10, "fixer", "t1"⟩)], []⟩
        "usd" "eur" =
      (Except.ok
        { baseCurrency := "USD", targetCurrency := "EUR",
          rate := (9 : ℚ) / 10, source := "fixer", timestamp := "t1",
          fromCache := true },
       ⟨[("rate:USD:EUR", ⟨"USD", "EUR", (9 : ℚ) / 10, "fixer", "t1"⟩)], []⟩,
       ⟨0, 0, 0⟩) :=
  ⟨by rfl,
   cache_hit_serves_cached_entry ⟨.rejected, .rejected, .rejected, "t2"⟩
     ⟨[("rate:USD:EUR", ⟨"USD", "EUR", (9 : ℚ) / 10, "fixer", "t1"⟩)], []⟩
     "usd" "eur" ⟨"USD", "EUR", (9 : ℚ) / 10, "fixer", "t1"⟩ (by rfl)⟩

/-- C2: aggregation succeeds iff some provider settled successfully; on
success the rate is the arithmetic mean of the succeeding rates and the
source joins the succeeding source names with `+` inside `aggregated(...)`,
in the fixed collection order fixer, frankfurter, currencyapi (the order of
`succeededResponses`); with zero successes it returns the
`{success: false, rate: 0, source: "none"}` sentinel. -/
theorem aggregation_mean_and_sources (now : String)
    (f fr ca : Settled ExternalAPIResponse) :
    ((fetchRateWithAggregation now f fr ca).success = true ↔
      succeededResponses f fr ca ≠ []) ∧
    (succeededResponses f fr ca ≠ [] →
      fetchRateWithAggregation now f fr ca =
        { success := true,
          rate := ((succeededResponses f fr ca).map (·.rate)).sum /
            ((succeededResponses f fr ca).length : ℚ),
          source := "aggregated(" ++ jsJoin "+"
            ((succeededResponses f fr ca).map (·.source)) ++ ")",
          timestamp := some now }) ∧
    (succeededResponses f fr ca = [] →
      fetchRateWithAggregation now f fr ca =
        { success := false, rate := 0, source := "none", timestamp := none }) :=
  ⟨agg_success_iff now f fr ca, agg_success_eq now f fr ca,
   agg_fail_eq now f fr ca⟩

/-- Witness for C2: fixer and frankfurter succeed with rates 1.10 and 1.12,
currencyapi fails; the aggregate is 1.11 from `aggregated(fixer+frankfurter)`. -/
theorem aggregation_mean_and_sources_witness :
    succeededResponses
        (.fulfilled ⟨true, 11 / 10, "fixer", some "ts1"⟩)
        (.fulfilled ⟨true, 28 / 25, "frankfurter", some "ts2"⟩)
        (.fulfilled ⟨false, 0, "currencyapi", none⟩) ≠ [] ∧
    fetchRateWithAggregation "t9"
        (.fulfilled ⟨true, 11 / 10, "fixer", some "ts1"⟩)
        (.fulfilled ⟨true, 28 / 25, "frankfurter", some "ts2"⟩)
        (.fulfilled ⟨false, 0, "currencyapi", none⟩) =
      { success := true, rate := 111 / 100,
        source := "aggregated(fixer+frankfurter)", timestamp := some "t9" } := by
  refine ⟨by decide, ?_⟩
  have h := (aggregation_mean_and_sources "t9"
    (.fulfilled ⟨true, 11 / 10, "fixer", some "ts1"⟩)
    (.fulfilled ⟨true, 28 / 25, "frankfurter", some "ts2"⟩)
    (.fulfilled ⟨false, 0, "currencyapi", none⟩)).2.1 (by decide)
  rw [h]
  norm_num [succeededResponses, settledSuccesses, jsJoin]
  decide

/-- `x || y` collapses when `x` is present and equal to the fallback. -/
theorem jsOrElse_some_self (y : String) : jsOrElse (some y) y = y := by
  simp [jsOrElse]

/-- C9: while the pair's cache entry is present, two consecutive
`getExchangeRate` calls (under arbitrary, possibly different, provider
environments) return bit-identical quote values, and neither call performs
a provider fetch, a cache write or a history write. -/
theorem cache_hit_idempotent (env1 env2 : Env) (st : Store)
    (bc tc : String) (cached : CachedRate)
    (hhit : cacheGetRate st (jsToUpperCase bc) (jsToUpperCase tc) = some cached) :
    (getExchangeRate env1 st bc tc).1 =
      (getExchangeRate env2 (getExchangeRate env1 st bc tc).2.1 bc tc).1 ∧
    (getExchangeRate env1 st bc tc).2.1 = st ∧
    (getExchangeRate env2 (getExchangeRate env1 st bc tc).2.1 bc tc).2.1 = st ∧
    (getExchangeRate env1 st bc tc).2.2 = ⟨0, 0, 0⟩ ∧
    (getExchangeRate env2 (getExchangeRate env1 st bc tc).2.1 bc tc).2.2 =
      ⟨0, 0, 0⟩ := by
  have h1 := getExchangeRate_cacheHit_eq env1 st bc tc cached hhit
  have h2 := getExchangeRate_cacheHit_eq env2 st bc tc cached hhit
  simp [h1, h2]

/-- Witness for C9 at a concrete warm cache entry and two distinct
environments. -/
theorem cache_hit_idempotent_witness :
    cacheGetRate ⟨[("rate:GBP:JPY", ⟨"GBP", "JPY", 190, "frankfurter", "t3"⟩)], []⟩
        (jsToUpperCase "gbp") (jsToUpperCase "jpy") =
      some ⟨"GBP", "JPY", 190, "frankfurter", "t3"⟩ ∧
    ((getExchangeRate ⟨.rejected, .rejected, .rejected, "t4"⟩
        ⟨[("rate:GBP:JPY", ⟨"GBP", "JPY", 190, "frankfurter", "t3"⟩)], []⟩
        "gbp" "jpy").1 =
      (getExchangeRate ⟨.fulfilled ⟨true, 191, "fixer", none⟩, .rejected, .rejected, "t5"⟩
        (getExchangeRate ⟨.rejected, .rejected, .rejected, "t4"⟩
          ⟨[("rate:GBP:JPY", ⟨"GBP", "JPY", 190, "frankfurter", "t3"⟩)], []⟩
          "gbp" "jpy").2.1 "gbp" "jpy").1) :=
  ⟨by rfl,
   (cache_hit_idempotent ⟨.rejected, .rejected, .rejected, "t4"⟩
     ⟨.fulfilled ⟨true, 191, "fixer", none⟩, .rejected, .rejected, "t5"⟩
     ⟨[("rate:GBP:JPY", ⟨"GBP", "JPY", 190, "frankfurter", "t3"⟩)], []⟩
     "gbp" "jpy" ⟨"GBP", "JPY", 190, "frankfurter", "t3"⟩ (by rfl)).1⟩

/-- C3: on a cold cache with at least one succeeding provider,
`getExchangeRate` writes exactly one fresh cache entry and appends exactly
one history row, both carrying the aggregated rate and source; both writes
are part of the store handed back with the returned quote, whose
`fromCache` is false and whose rate is that same aggregated rate. -/
theorem cold_cache_success_writes_through (env : Env) (st : Store)
    (bc tc : String)
    (hmiss : cacheGetRate st (jsToUpperCase bc) (jsToUpperCase tc) = none)
    (hsucc : succeededResponses env.fixerResult env.frankfurterResult
      env.currencyApiResult ≠ []) :
    getExchangeRate env st bc tc =
      (Except.ok
        { baseCurrency := jsToUpperCase bc, targetCurrency := jsToUpperCase tc,
          rate := (fetchRateWithAggregation env.now env.fixerResult
            env.frankfurterResult env.currencyApiResult).rate,
          source := (fetchRateWithAggregation env.now env.fixerResult
            env.frankfurterResult env.currencyApiResult).source,
          timestamp := env.now, fromCache := false },
       { cache :=
           (getCacheKey (jsToUpperCase bc) (jsToUpperCase tc),
             { baseCurrency := jsToUpperCase (jsToUpperCase bc),
               targetCurrency := jsToUpperCase (jsToUpperCase tc),
               rate := (fetchRateWithAggregation env.now env.fixerResult
                 env.frankfurterResult env.currencyApiResult).rate,
               source := (fetchRateWithAggregation env.now env.fixerResult
                 env.frankfurterResult env.currencyApiResult).source,
               timestamp := env.now }) ::
             st.cache.filter (fun p =>
               !(p.1 == getCacheKey (jsToUpperCase bc) (jsToUpperCase tc))),
         history :=
           { baseCurrency := jsToUpperCase (jsToUpperCase bc),
             targetCurrency := jsToUpperCase (jsToUpperCase tc),
             rate := (fetchRateWithAggregation env.now env.fixerResult
               env.frankfurterResult env.currencyApiResult).rate,
             source := (fetchRateWithAggregation env.now env.fixerResult
               env.frankfurterResult env.currencyApiResult).source,
             createdAt := env.now } :: st.history },
       ⟨3, 1, 1⟩) := by
  have hs : (fetchRateWithAggregation env.now env.fixerResult
      env.frankfurterResult env.currencyApiResult).success = true :=
    (agg_success_iff env.now env.fixerResult env.frankfurterResult
      env.currencyApiResult).mpr hsucc
  have ht : (fetchRateWithAggregation env.now env.fixerResult
      env.frankfurterResult env.currencyApiResult).timestamp = some env.now := by
    rw [agg_success_eq env.now env.fixerResult env.frankfurterResult
      env.currencyApiResult hsucc]
  simp [getExchangeRate, checkCache, hmiss, fetchFromAPIs, hs, ht,
    jsOrElse_some_self, cacheSetRate, dbSaveRate]

/-- Witness for C3: an empty store and a single succeeding provider. -/
theorem cold_cache_success_writes_through_witness :
    cacheGetRate ⟨[], []⟩ (jsToUpperCase "usd") (jsToUpperCase "ngn") = none ∧
    succeededResponses (.fulfilled ⟨true, 1500, "fixer", some "tsA"⟩)
      .rejected .rejected ≠ [] ∧
    getExchangeRate
        ⟨.fulfilled ⟨true, 1500, "fixer", some "tsA"⟩, .rejected, .rejected, "T"⟩
        ⟨[], []⟩ "usd" "ngn" =
      (Except.ok
        { baseCurrency := jsToUpperCase "usd",
          targetCurrency := jsToUpperCase "ngn",
          rate := (fetchRateWithAggregation "T"
            (.fulfilled ⟨true, 1500, "fixer", some "tsA"⟩) .rejected .rejected).rate,
          source := (fetchRateWithAggregation "T"
            (.fulfilled ⟨true, 1500, "fixer", some "tsA"⟩) .rejected .rejected).source,
          timestamp := "T", fromCache := false },
       { cache :=
           [(getCacheKey (jsToUpperCase "usd") (jsToUpperCase "ngn"),
             { baseCurrency := jsToUpperCase (jsToUpperCase "usd"),
               targetCurrency := jsToUpperCase (jsToUpperCase "ngn"),
               rate := (fetchRateWithAggregation "T"
                 (.fulfilled ⟨true, 1500, "fixer", some "tsA"⟩) .rejected .rejected).rate,
               source := (fetchRateWithAggregation "T"
                 (.fulfilled ⟨true, 1500, "fixer", some "tsA"⟩) .rejected .rejected).source,
               timestamp := "T" })],
         history :=
           [{ baseCurrency := jsToUpperCase (jsToUpperCase "usd"),
              targetCurrency := jsToUpperCase (jsToUpperCase "ngn"),
              rate := (fetchRateWithAggregation "T"
                (.fulfilled ⟨true, 1500, "fixer", some "tsA"⟩) .rejected .rejected).rate,
              source := (fetchRateWithAggregation "T"
                (.fulfilled ⟨true, 1500, "fixer", some "tsA"⟩) .rejected .rejected).source,
              createdAt := "T" }] },
       ⟨3, 1, 1⟩) :=
  ⟨by rfl, by decide,
   cold_cache_success_writes_through
     ⟨.fulfilled ⟨true, 1500, "fixer", some "tsA"⟩, .rejected, .rejected, "T"⟩
     ⟨[], []⟩ "usd" "ngn" (by rfl) (by decide)⟩

/-- C4: on a cold cache where every provider fails but a history record
exists, `getExchangeRate` returns the latest record's rate with the
record's source suffixed `" (stale)"` and `fromCache = false`, leaving both
stores untouched (in particular no new history write). -/
theorem stale_history_fallback (env : Env) (st : Store)
    (bc tc : String) (latestRate : ExchangeRate)
    (hmiss : cacheGetRate st (jsToUpperCase bc) (jsToUpperCase tc) = none)
    (hfail : succeededResponses env.fixerResult env.frankfurterResult
      env.currencyApiResult = [])
    (hdb : dbGetLatestRate st (jsToUpperCase bc) (jsToUpperCase tc) =
      some latestRate) :
    getExchangeRate env st bc tc =
      (Except.ok
        { baseCurrency := latestRate.baseCurrency,
          targetCurrency := latestRate.targetCurrency,
          rate := latestRate.rate,
          source := latestRate.source ++ " (stale)",
          timestamp := latestRate.createdAt, fromCache := false },
       st, ⟨3, 0, 0⟩) := by
  have hs : (fetchRateWithAggregation env.now env.fixerResult
      env.frankfurterResult env.currencyApiResult).success = false := by
    rw [agg_fail_eq env.now env.fixerResult env.frankfurterResult
      env.currencyApiResult hfail]
  simp [getExchangeRate, checkCache, hmiss, fetchFromAPIs, hs,
    fetchFromDatabase, hdb]

/-- Witness for C4: empty cache, all providers failing, one history row. -/
theorem stale_history_fallback_witness :
    cacheGetRate ⟨[], [⟨"USD", "EUR", 1, "fixer", "t0"⟩]⟩
        (jsToUpperCase "usd") (jsToUpperCase "eur") = none ∧
    succeededResponses (.fulfilled ⟨false, 0, "fixer", none⟩) .rejected
      .rejected = [] ∧
    dbGetLatestRate ⟨[], [⟨"USD", "EUR", 1, "fixer", "t0"⟩]⟩
        (jsToUpperCase "usd") (jsToUpperCase "eur") =
      some ⟨"USD", "EUR", 1, "fixer", "t0"⟩ ∧
    getExchangeRate ⟨.fulfilled ⟨false, 0, "fixer", none⟩, .rejected,
        .rejected, "T2"⟩ ⟨[], [⟨"USD", "EUR", 1, "fixer", "t0"⟩]⟩
        "usd" "eur" =
      (Except.ok
        { baseCurrency := "USD", targetCurrency := "EUR", rate := 1,
          source := "fixer" ++ " (stale)", timestamp := "t0",
          fromCache := false },
       ⟨[], [⟨"USD", "EUR", 1, "fixer", "t0"⟩]⟩, ⟨3, 0, 0⟩) :=
  ⟨by rfl, by decide, by rfl,
   stale_history_fallback
     ⟨.fulfilled ⟨false, 0, "fixer", none⟩, .rejected, .rejected, "T2"⟩
     ⟨[], [⟨"USD", "EUR", 1, "fixer", "t0"⟩]⟩ "usd" "eur"
     ⟨"USD", "EUR", 1, "fixer", "t0"⟩ (by rfl) (by decide) (by rfl)⟩

/-- After a cache miss, a successful aggregation yields the fresh quote on
the `Except.ok` side. -/
theorem getExchangeRate_fst_apiSuccess (env : Env) (st : Store)
    (bc tc : String)
    (hmiss : cacheGetRate st (jsToUpperCase bc) (jsToUpperCase tc) = none)
    (hs : (fetchRateWithAggregation env.now env.fixerResult
      env.frankfurterResult env.currencyApiResult).success = true) :
    (getExchangeRate env st bc tc).1 =
      Except.ok
        { baseCurrency := jsToUpperCase bc, targetCurrency := jsToUpperCase tc,
          rate := (fetchRateWithAggregation env.now env.fixerResult
            env.frankfurterResult env.currencyApiResult).rate,
          source := (fetchRateWithAggregation env.now env.fixerResult
            env.frankfurterResult env.currencyApiResult).source,
          timestamp := jsOrElse (fetchRateWithAggregation env.now
            env.fixerResult env.frankfurterResult
            env.currencyApiResult).timestamp env.now,
          fromCache := false } := by
  simp [getExchangeRate, checkCache, hmiss, fetchFromAPIs, hs]

/-- Cache miss, failed aggregation, matching history row: the stale
fallback triple. -/
theorem getExchangeRate_stale_eq (env : Env) (st : Store)
    (bc tc : String) (latestRate : ExchangeRate)
    (hmiss : cacheGetRate st (jsToUpperCase bc) (jsToUpperCase tc) = none)
    (hs : (fetchRateWithAggregation env.now env.fixerResult
      env.frankfurterResult env.currencyApiResult).success = false)
    (hdb : dbGetLatestRate st (jsToUpperCase bc) (jsToUpperCase tc) =
      some latestRate) :
    getExchangeRate env st bc tc =
      (Except.ok
        { baseCurrency := latestRate.baseCurrency,
          targetCurrency := latestRate.targetCurrency,
          rate := latestRate.rate,
          source := latestRate.source ++ " (stale)",
          timestamp := latestRate.createdAt, fromCache := false },
       st, ⟨3, 0, 0⟩) := by
  simp [getExchangeRate, checkCache, hmiss, fetchFromAPIs, hs,
    fetchFromDatabase, hdb]

/-- Cache miss, failed aggregation, no history row: the terminal failure
carrying the normalized pair, with the store untouched. -/
theorem getExchangeRate_exhausted_eq (env : Env) (st : Store)
    (bc tc : String)
    (hmiss : cacheGetRate st (jsToUpperCase bc) (jsToUpperCase tc) = none)
    (hs : (fetchRateWithAggregation env.now env.fixerResult
      env.frankfurterResult env.currencyApiResult).success = false)
    (hdb : dbGetLatestRate st (jsToUpperCase bc) (jsToUpperCase tc) = none) :
    getExchangeRate env st bc tc =
      (Except.error ("Unable to fetch exchange rate for " ++
          jsToUpperCase bc ++ " → " ++ jsToUpperCase tc),
       st, ⟨3, 0, 0⟩) := by
  simp [getExchangeRate, checkCache, hmiss, fetchFromAPIs, hs,
    fetchFromDatabase, hdb]

/-- C5: `getExchangeRate` fails — with the error message carrying the
normalized pair — exactly when the cache has no entry for the pair,
aggregation has no successful provider, and no history record exists; any
error it ever returns is that message, so in every other case it returns a
quote. -/
theorem resolution_failure_iff_all_tiers_empty (env : Env) (st : Store)
    (bc tc : String) :
    ((getExchangeRate env st bc tc).1 =
        Except.error ("Unable to fetch exchange rate for " ++
          jsToUpperCase bc ++ " → " ++ jsToUpperCase tc) ↔
      (cacheGetRate st (jsToUpperCase bc) (jsToUpperCase tc) = none ∧
       succeededResponses env.fixerResult env.frankfurterResult
         env.currencyApiResult = [] ∧
       dbGetLatestRate st (jsToUpperCase bc) (jsToUpperCase tc) = none)) ∧
    (∀ msg, (getExchangeRate env st bc tc).1 = Except.error msg →
      msg = "Unable to fetch exchange rate for " ++
        jsToUpperCase bc ++ " → " ++ jsToUpperCase tc) := by
  cases hc : cacheGetRate st (jsToUpperCase bc) (jsToUpperCase tc) with
  | some c =>
    have h := getExchangeRate_cacheHit_eq env st bc tc c hc
    refine ⟨?_, ?_⟩
    · rw [h]; simp [hc]
    · intro msg hmsg; rw [h] at hmsg; simp at hmsg
  | none =>
    by_cases ha : succeededResponses env.fixerResult env.frankfurterResult
        env.currencyApiResult = []
    · have hs : (fetchRateWithAggregation env.now env.fixerResult
          env.frankfurterResult env.currencyApiResult).success = false := by
        rw [agg_fail_eq env.now env.fixerResult env.frankfurterResult
          env.currencyApiResult ha]
      cases hd : dbGetLatestRate st (jsToUpperCase bc) (jsToUpperCase tc) with
      | some r =>
        have h := getExchangeRate_stale_eq env st bc tc r hc hs hd
        refine ⟨?_, ?_⟩
        · rw [h]; simp [hd]
        · intro msg hmsg; rw [h] at hmsg; simp at hmsg
      | none =>
        have h := getExchangeRate_exhausted_eq env st bc tc hc hs hd
        refine ⟨?_, ?_⟩
        · rw [h]; simp [hc, ha, hd]
        · intro msg hmsg; rw [h] at hmsg; simpa using hmsg.symm
    · have hs : (fetchRateWithAggregation env.now env.fixerResult
          env.frankfurterResult env.currencyApiResult).success = true :=
        (agg_success_iff env.now env.fixerResult env.frankfurterResult
          env.currencyApiResult).mpr ha
      have h := getExchangeRate_fst_apiSuccess env st bc tc hc hs
      refine ⟨?_, ?_⟩
      · rw [h]; simp [ha]
      · intro msg hmsg; rw [h] at hmsg; simp at hmsg

/-- Witness for C5: with an empty store and every provider failing, the
call fails with the message naming the normalized pair. -/
theorem resolution_failure_iff_all_tiers_empty_witness :
    (getExchangeRate ⟨.rejected, .rejected, .fulfilled ⟨false, 0, "currencyapi", none⟩,
        "T3"⟩ ⟨[], []⟩ "usd" "eur").1 =
      Except.error ("Unable to fetch exchange rate for " ++
        jsToUpperCase "usd" ++ " → " ++ jsToUpperCase "eur") :=
  (resolution_failure_iff_all_tiers_empty
    ⟨.rejected, .rejected, .fulfilled ⟨false, 0, "currencyapi", none⟩, "T3"⟩
    ⟨[], []⟩ "usd" "eur").1.mpr ⟨by rfl, by decide, by rfl⟩

/-- C10: whenever `getExchangeRate` fails, the call has written nothing:
the store it hands back is exactly the store it was given, and its cache
write and history write counters are zero. -/
theorem failure_preserves_stores (env : Env) (st : Store)
    (bc tc : String) (msg : String)
    (hfail : (getExchangeRate env st bc tc).1 = Except.error msg) :
    (getExchangeRate env st bc tc).2.1 = st ∧
    (getExchangeRate env st bc tc).2.2.cacheWrites = 0 ∧
    (getExchangeRate env st bc tc).2.2.historyWrites = 0 := by
  cases hc : cacheGetRate st (jsToUpperCase bc) (jsToUpperCase tc) with
  | some c =>
    have h := getExchangeRate_cacheHit_eq env st bc tc c hc
    rw [h] at hfail; simp at hfail
  | none =>
    by_cases ha : succeededResponses env.fixerResult env.frankfurterResult
        env.currencyApiResult = []
    · have hs : (fetchRateWithAggregation env.now env.fixerResult
          env.frankfurterResult env.currencyApiResult).success = false := by
        rw [agg_fail_eq env.now env.fixerResult env.frankfurterResult
          env.currencyApiResult ha]
      cases hd : dbGetLatestRate st (jsToUpperCase bc) (jsToUpperCase tc) with
      | some r =>
        have h := getExchangeRate_stale_eq env st bc tc r hc hs hd
        rw [h] at hfail; simp at hfail
      | none =>
        have h := getExchangeRate_exhausted_eq env st bc tc hc hs hd
        rw [h]; simp
    · have hs : (fetchRateWithAggregation env.now env.fixerResult
          env.frankfurterResult env.currencyApiResult).success = true :=
        (agg_success_iff env.now env.fixerResult env.frankfurterResult
          env.currencyApiResult).mpr ha
      have h := getExchangeRate_fst_apiSuccess env st bc tc hc hs
      rw [h] at hfail; simp at hfail

/-- Witness for C10: a failing call on an empty store leaves it empty with
zero write counters. -/
theorem failure_preserves_stores_witness :
    (getExchangeRate ⟨.rejected, .rejected, .rejected, "T4"⟩ ⟨[], []⟩
        "gbp" "usd").1 =
      Except.error ("Unable to fetch exchange rate for " ++
        jsToUpperCase "gbp" ++ " → " ++ jsToUpperCase "usd") ∧
    (getExchangeRate ⟨.rejected, .rejected, .rejected, "T4"⟩ ⟨[], []⟩
        "gbp" "usd").2.1 = (⟨[], []⟩ : Store) ∧
    (getExchangeRate ⟨.rejected, .rejected, .rejected, "T4"⟩ ⟨[], []⟩
        "gbp" "usd").2.2.cacheWrites = 0 ∧
    (getExchangeRate ⟨.rejected, .rejected, .rejected, "T4"⟩ ⟨[], []⟩
        "gbp" "usd").2.2.historyWrites = 0 :=
  ⟨by rfl,
   failure_preserves_stores ⟨.rejected, .rejected, .rejected, "T4"⟩ ⟨[], []⟩
     "gbp" "usd"
     ("Unable to fetch exchange rate for " ++ jsToUpperCase "gbp" ++ " → " ++
       jsToUpperCase "usd") (by rfl)⟩

/-- C6: no provider client ever propagates an error: an axios failure
(network error, timeout, HTTP error, malformed body), a non-success Fixer
status, or a missing rate for the requested target each collapse into the
`{success: false, rate: 0, source: <provider-name>}` sentinel, and every
possible outcome is either a success or exactly that sentinel. -/
theorem provider_clients_absorb_failures (target : String) :
    (fetchFromFixer .failure target =
      { success := false, rate := 0, source := "fixer", timestamp := none }) ∧
    (∀ d : FixerResponse, d.success = false →
      fetchFromFixer (.ok d) target =
        { success := false, rate := 0, source := "fixer", timestamp := none }) ∧
    (∀ d : FixerResponse, lookupRate d.rates (jsToUpperCase target) = none →
      fetchFromFixer (.ok d) target =
        { success := false, rate := 0, source := "fixer", timestamp := none }) ∧
    (∀ r : AxiosResult FixerResponse,
      (fetchFromFixer r target).success = true ∨
      fetchFromFixer r target =
        { success := false, rate := 0, source := "fixer", timestamp := none }) ∧
    (fetchFromFrankfurter .failure target =
      { success := false, rate := 0, source := "frankfurter",
        timestamp := none }) ∧
    (∀ d : FrankfurterResponse,
      lookupRate d.rates (jsToUpperCase target) = none →
      fetchFromFrankfurter (.ok d) target =
        { success := false, rate := 0, source := "frankfurter",
          timestamp := none }) ∧
    (∀ r : AxiosResult FrankfurterResponse,
      (fetchFromFrankfurter r target).success = true ∨
      fetchFromFrankfurter r target =
        { success := false, rate := 0, source := "frankfurter",
          timestamp := none }) ∧
    (fetchFromCurrencyAPI .failure target =
      { success := false, rate := 0, source := "currencyapi",
        timestamp := none }) ∧
    (∀ d : CurrencyAPIResponse,
      lookupData d.data (jsToUpperCase target) = none →
      fetchFromCurrencyAPI (.ok d) target =
        { success := false, rate := 0, source := "currencyapi",
          timestamp := none }) ∧
    (∀ r : AxiosResult CurrencyAPIResponse,
      (fetchFromCurrencyAPI r target).success = true ∨
      fetchFromCurrencyAPI r target =
        { success := false, rate := 0, source := "currencyapi",
          timestamp := none }) := by
  refine ⟨rfl, ?_, ?_, ?_, rfl, ?_, ?_, rfl, ?_, ?_⟩
  · intro d h; simp [fetchFromFixer, h]
  · intro d h
    cases hds : d.success with
    | false => simp [fetchFromFixer, hds]
    | true => simp [fetchFromFixer, hds, h]
  · intro r
    cases r with
    | failure => exact Or.inr rfl
    | ok d =>
      cases hds : d.success with
      | false => exact Or.inr (by simp [fetchFromFixer, hds])
      | true =>
        cases hl : lookupRate d.rates (jsToUpperCase target) with
        | none => exact Or.inr (by simp [fetchFromFixer, hds, hl])
        | some rate =>
          cases hr : (rate == 0) with
          | true => exact Or.inr (by simp [fetchFromFixer, hds, hl, hr])
          | false => exact Or.inl (by simp [fetchFromFixer, hds, hl, hr])
  · intro d h; simp [fetchFromFrankfurter, h]
  · intro r
    cases r with
    | failure => exact Or.inr rfl
    | ok d =>
      cases hl : lookupRate d.rates (jsToUpperCase target) with
      | none => exact Or.inr (by simp [fetchFromFrankfurter, hl])
      | some rate =>
        cases hr : (rate == 0) with
        | true => exact Or.inr (by simp [fetchFromFrankfurter, hl, hr])
        | false => exact Or.inl (by simp [fetchFromFrankfurter, hl, hr])
  · intro d h; simp [fetchFromCurrencyAPI, h]
  · intro r
    cases r with
    | failure => exact Or.inr rfl
    | ok d =>
      cases hl : lookupData d.data (jsToUpperCase target) with
      | none => exact Or.inr (by simp [fetchFromCurrencyAPI, hl])
      | some targetData =>
        cases hr : (targetData.value == 0) with
        | true => exact Or.inr (by simp [fetchFromCurrencyAPI, hl, hr])
        | false => exact Or.inl (by simp [fetchFromCurrencyAPI, hl, hr])

/-- Witness for C6 at concrete failing payloads for each provider. -/
theorem provider_clients_absorb_failures_witness :
    fetchFromFixer .failure "eur" =
      { success := false, rate := 0, source := "fixer", timestamp := none } ∧
    fetchFromFixer (.ok ⟨false, 0, [("EUR", 2)]⟩) "eur" =
      { success := false, rate := 0, source := "fixer", timestamp := none } ∧
    fetchFromFixer (.ok ⟨true, 0, []⟩) "eur" =
      { success := false, rate := 0, source := "fixer", timestamp := none } ∧
    fetchFromFrankfurter (.ok ⟨"2024-01-05", []⟩) "eur" =
      { success := false, rate := 0, source := "frankfurter",
        timestamp := none } ∧
    fetchFromCurrencyAPI (.ok ⟨[]⟩) "eur" =
      { success := false, rate := 0, source := "currencyapi",
        timestamp := none } := by
  obtain ⟨h1, h2, h3, _, _, h6, _, _, h9, _⟩ :=
    provider_clients_absorb_failures "eur"
  exact ⟨h1, h2 ⟨false, 0, [("EUR", 2)]⟩ rfl, h3 ⟨true, 0, []⟩ rfl,
    h6 ⟨"2024-01-05", []⟩ rfl, h9 ⟨[]⟩ rfl⟩

/-- C7: when rate resolution succeeds, `convertCurrency` returns the
resolved quote's fields plus the input amount and
`convertedAmount = round(amount * rate * 100) / 100` (two decimal places),
threading the resolver's store and effects; when resolution fails, the
failure propagates unchanged. -/
theorem convert_rounds_and_propagates (env : Env) (st : Store)
    (bc tc : String) (amount : ℚ) :
    (∀ (q : ConversionResult) (st2 : Store) (eff : Effects),
      getExchangeRate env st bc tc = (Except.ok q, st2, eff) →
      convertCurrency env st bc tc amount =
        (Except.ok
          { q with
            amount := some amount,
            convertedAmount :=
              some ((jsRound (amount * q.rate * 100) : ℚ) / 100) },
         st2, eff)) ∧
    (∀ (e : String) (st2 : Store) (eff : Effects),
      getExchangeRate env st bc tc = (Except.error e, st2, eff) →
      convertCurrency env st bc tc amount = (Except.error e, st2, eff)) := by
  constructor
  · intro q st2 eff h; simp [convertCurrency, h]
  · intro e st2 eff h; simp [convertCurrency, h]

/-- Witness for C7: a warm cache entry with rate 0.925 and amount 100
convert to exactly 92.5 (= 185/2). -/
theorem convert_rounds_and_propagates_witness :
    getExchangeRate ⟨.rejected, .rejected, .rejected, "T6"⟩
        ⟨[("rate:USD:EUR", ⟨"USD", "EUR", (0.925 : ℚ), "fixer", "t1"⟩)], []⟩
        "usd" "eur" =
      (Except.ok
        { baseCurrency := "USD", targetCurrency := "EUR",
          rate := (0.925 : ℚ), source := "fixer", timestamp := "t1",
          fromCache := true },
       ⟨[("rate:USD:EUR", ⟨"USD", "EUR", (0.925 : ℚ), "fixer", "t1"⟩)], []⟩,
       ⟨0, 0, 0⟩) ∧
    convertCurrency ⟨.rejected, .rejected, .rejected, "T6"⟩
        ⟨[("rate:USD:EUR", ⟨"USD", "EUR", (0.925 : ℚ), "fixer", "t1"⟩)], []⟩
        "usd" "eur" 100 =
      (Except.ok
        { baseCurrency := "USD", targetCurrency := "EUR",
          rate := (0.925 : ℚ), amount := some 100,
          convertedAmount := some ((185 : ℚ) / 2), source := "fixer",
          timestamp := "t1", fromCache := true },
       ⟨[("rate:USD:EUR", ⟨"USD", "EUR", (0.925 : ℚ), "fixer", "t1"⟩)], []⟩,
       ⟨0, 0, 0⟩) := by
  have h : getExchangeRate ⟨.rejected, .rejected, .rejected, "T6"⟩
      ⟨[("rate:USD:EUR", ⟨"USD", "EUR", (0.925 : ℚ), "fixer", "t1"⟩)], []⟩
      "usd" "eur" =
      (Except.ok
        { baseCurrency := "USD", targetCurrency := "EUR",
          rate := (0.925 : ℚ), source := "fixer", timestamp := "t1",
          fromCache := true },
       ⟨[("rate:USD:EUR", ⟨"USD", "EUR", (0.925 : ℚ), "fixer", "t1"⟩)], []⟩,
       ⟨0, 0, 0⟩) := rfl
  refine ⟨h, ?_⟩
  have h2 := (convert_rounds_and_propagates
    ⟨.rejected, .rejected, .rejected, "T6"⟩
    ⟨[("rate:USD:EUR", ⟨"USD", "EUR", (0.925 : ℚ), "fixer", "t1"⟩)], []⟩
    "usd" "eur" 100).1 _ _ _ h
  rw [h2]
  norm_num [jsRound]

/-- C8 counterexample: the pipeline validates no positivity.  A Fixer
payload carrying a negative rate yields a successful provider response with
rate −5 (only falsy rates are rejected), and a cold-cache resolution under
that response persists rate −5 to both the history store and the cache. -/
theorem persisted_rate_positive_cex :
    fetchFromFixer (.ok ⟨true, 0, [("EUR", -5)]⟩) "eur" =
      { success := true, rate := -5, source := "fixer",
        timestamp := some (unixMillisToISOString 0) } ∧
    ¬ (∀ rec ∈ (getExchangeRate
        ⟨.fulfilled
          { success := true, rate := -5, source := "fixer",
            timestamp := some (unixMillisToISOString 0) },
         .rejected, .rejected, "T7"⟩ ⟨[], []⟩ "usd" "eur").2.1.history,
        0 < rec.rate) ∧
    ¬ (∀ p ∈ (getExchangeRate
        ⟨.fulfilled
          { success := true, rate := -5, source := "fixer",
            timestamp := some (unixMillisToISOString 0) },
         .rejected, .rejected, "T7"⟩ ⟨[], []⟩ "usd" "eur").2.1.cache,
        0 < p.2.rate) := by
  have hhist : (getExchangeRate
      ⟨.fulfilled
        { success := true, rate := -5, source := "fixer",
          timestamp := some (unixMillisToISOString 0) },
       .rejected, .rejected, "T7"⟩ ⟨[], []⟩ "usd" "eur").2.1.history.map
        (·.rate) = [-5] := by
    simp [getExchangeRate, checkCache, cacheGetRate, getCacheKey,
      jsToUpperCase, fetchFromAPIs, fetchRateWithAggregation,
      succeededResponses, settledSuccesses, cacheSetRate, dbSaveRate]
  have hcache : (getExchangeRate
      ⟨.fulfilled
        { success := true, rate := -5, source := "fixer",
          timestamp := some (unixMillisToISOString 0) },
       .rejected, .rejected, "T7"⟩ ⟨[], []⟩ "usd" "eur").2.1.cache.map
        (fun p => p.2.rate) = [-5] := by
    simp [getExchangeRate, checkCache, cacheGetRate, getCacheKey,
      jsToUpperCase, fetchFromAPIs, fetchRateWithAggregation,
      succeededResponses, settledSuccesses, cacheSetRate, dbSaveRate]
  refine ⟨rfl, fun hAll => ?_, fun hAll => ?_⟩
  · have h : ∀ x ∈ (getExchangeRate
        ⟨.fulfilled
          { success := true, rate := -5, source := "fixer",
            timestamp := some (unixMillisToISOString 0) },
         .rejected, .rejected, "T7"⟩ ⟨[], []⟩ "usd" "eur").2.1.history.map
          (·.rate), 0 < x := by
      intro x hx
      obtain ⟨rec, hrec, rfl⟩ := List.mem_map.1 hx
      exact hAll rec hrec
    rw [hhist] at h
    have := h (-5) (by simp)
    norm_num at this
  · have h : ∀ x ∈ (getExchangeRate
        ⟨.fulfilled
          { success := true, rate := -5, source := "fixer",
            timestamp := some (unixMillisToISOString 0) },
         .rejected, .rejected, "T7"⟩ ⟨[], []⟩ "usd" "eur").2.1.cache.map
          (fun p => p.2.rate), 0 < x := by
      intro x hx
      obtain ⟨p, hp, rfl⟩ := List.mem_map.1 hx
      exact hAll p hp
    rw [hcache] at h
    have := h (-5) (by simp)
    norm_num at this

/-- Every response a settled provider outcome contributes to
`successfulResults` is a success of that outcome. -/
theorem mem_settledSuccesses_pos (s : Settled ExternalAPIResponse)
    (hp : settledPositive s) (r : ExternalAPIResponse)
    (hr : r ∈ settledSuccesses s) : 0 < r.rate := by
  cases s with
  | rejected => simp [settledSuccesses] at hr
  | fulfilled v =>
    cases hv : v.success with
    | false => simp [settledSuccesses, hv] at hr
    | true =>
      simp [settledSuccesses, hv] at hr
      subst hr
      exact hp hv

/-- When every successful settled response has a positive rate, the
aggregated average is positive. -/
theorem agg_rate_pos (now : String) (f fr ca : Settled ExternalAPIResponse)
    (hf : settledPositive f) (hfr : settledPositive fr)
    (hca : settledPositive ca) (hne : succeededResponses f fr ca ≠ []) :
    0 < (fetchRateWithAggregation now f fr ca).rate := by
  rw [agg_success_eq now f fr ca hne]
  apply div_pos
  · apply List.sum_pos
    · intro x hx
      obtain ⟨r, hr, rfl⟩ := List.mem_map.1 hx
      rcases List.mem_append.1 hr with h1 | h2
      · rcases List.mem_append.1 h1 with ha | hb
        · exact mem_settledSuccesses_pos f hf r ha
        · exact mem_settledSuccesses_pos fr hfr r hb
      · exact mem_settledSuccesses_pos ca hca r h2
    · simpa using hne
  · exact_mod_cast List.length_pos.mpr hne

/-- Full evaluation of the cold-cache successful-aggregation branch
(write-through to cache and history). -/
theorem getExchangeRate_apiSuccess_eq (env : Env) (st : Store)
    (bc tc : String)
    (hmiss : cacheGetRate st (jsToUpperCase bc) (jsToUpperCase tc) = none)
    (hsucc : succeededResponses env.fixerResult env.frankfurterResult
      env.currencyApiResult ≠ []) :
    getExchangeRate env st bc tc =
      (Except.ok
        { baseCurrency := jsToUpperCase bc, targetCurrency := jsToUpperCase tc,
          rate := (fetchRateWithAggregation env.now env.fixerResult
            env.frankfurterResult env.currencyApiResult).rate,
          source := (fetchRateWithAggregation env.now env.fixerResult
            env.frankfurterResult env.currencyApiResult).source,
          timestamp := env.now, fromCache := false },
       { cache :=
           (getCacheKey (jsToUpperCase bc) (jsToUpperCase tc),
             { baseCurrency := jsToUpperCase (jsToUpperCase bc),
               targetCurrency := jsToUpperCase (jsToUpperCase tc),
               rate := (fetchRateWithAggregation env.now env.fixerResult
                 env.frankfurterResult env.currencyApiResult).rate,
               source := (fetchRateWithAggregation env.now env.fixerResult
                 env.frankfurterResult env.currencyApiResult).source,
               timestamp := env.now }) ::
             st.cache.filter (fun p =>
               !(p.1 == getCacheKey (jsToUpperCase bc) (jsToUpperCase tc))),
         history :=
           { baseCurrency := jsToUpperCase (jsToUpperCase bc),
             targetCurrency := jsToUpperCase (jsToUpperCase tc),
             rate := (fetchRateWithAggregation env.now env.fixerResult
               env.frankfurterResult env.currencyApiResult).rate,
             source := (fetchRateWithAggregation env.now env.fixerResult
               env.frankfurterResult env.currencyApiResult).source,
             createdAt := env.now } :: st.history },
       ⟨3, 1, 1⟩) := by
  have hs : (fetchRateWithAggregation env.now env.fixerResult
      env.frankfurterResult env.currencyApiResult).success = true :=
    (agg_success_iff env.now env.fixerResult env.frankfurterResult
      env.currencyApiResult).mpr hsucc
  have ht : (fetchRateWithAggregation env.now env.fixerResult
      env.frankfurterResult env.currencyApiResult).timestamp = some env.now := by
    rw [agg_success_eq env.now env.fixerResult env.frankfurterResult
      env.currencyApiResult hsucc]
  simp [getExchangeRate, checkCache, hmiss, fetchFromAPIs, hs, ht,
    jsOrElse_some_self, cacheSetRate, dbSaveRate]

/-- C8 amended: provided every successful settled provider response carries
a positive rate, every history row and cache entry present after a
`getExchangeRate` call was either already in the store or was written with
a positive rate. -/
theorem persisted_rate_positive_of_positive_providers (env : Env)
    (st : Store) (bc tc : String)
    (hf : settledPositive env.fixerResult)
    (hfr : settledPositive env.frankfurterResult)
    (hca : settledPositive env.currencyApiResult) :
    (∀ rec ∈ (getExchangeRate env st bc tc).2.1.history,
      rec ∈ st.history ∨ 0 < rec.rate) ∧
    (∀ p ∈ (getExchangeRate env st bc tc).2.1.cache,
      p ∈ st.cache ∨ 0 < p.2.rate) := by
  cases hc : cacheGetRate st (jsToUpperCase bc) (jsToUpperCase tc) with
  | some c =>
    have h := getExchangeRate_cacheHit_eq env st bc tc c hc
    simp only [h]
    exact ⟨fun rec hrec => Or.inl hrec, fun p hp => Or.inl hp⟩
  | none =>
    by_cases ha : succeededResponses env.fixerResult env.frankfurterResult
        env.currencyApiResult = []
    · have hs : (fetchRateWithAggregation env.now env.fixerResult
          env.frankfurterResult env.currencyApiResult).success = false := by
        rw [agg_fail_eq env.now env.fixerResult env.frankfurterResult
          env.currencyApiResult ha]
      cases hd : dbGetLatestRate st (jsToUpperCase bc) (jsToUpperCase tc) with
      | some r =>
        have h := getExchangeRate_stale_eq env st bc tc r hc hs hd
        simp only [h]
        exact ⟨fun rec hrec => Or.inl hrec, fun p hp => Or.inl hp⟩
      | none =>
        have h := getExchangeRate_exhausted_eq env st bc tc hc hs hd
        simp only [h]
        exact ⟨fun rec hrec => Or.inl hrec, fun p hp => Or.inl hp⟩
    · have hpos : 0 < (fetchRateWithAggregation env.now env.fixerResult
          env.frankfurterResult env.currencyApiResult).rate :=
        agg_rate_pos env.now env.fixerResult env.frankfurterResult
          env.currencyApiResult hf hfr hca ha
      have h := getExchangeRate_apiSuccess_eq env st bc tc hc ha
      simp only [h]
      constructor
      · intro rec hrec
        rcases List.mem_cons.1 hrec with heq | hmem
        · subst heq; exact Or.inr hpos
        · exact Or.inl hmem
      · intro p hp
        rcases List.mem_cons.1 hp with heq | hmem
        · subst heq; exact Or.inr hpos
        · exact Or.inl (List.mem_filter.1 hmem).1

/-- Witness for C8 amended: a single positive-rate success on an empty
store. -/
theorem persisted_rate_positive_of_positive_providers_witness :
    (∀ rec ∈ (getExchangeRate
        ⟨.fulfilled ⟨true, 2, "fixer", none⟩, .rejected, .rejected, "T8"⟩
        ⟨[], []⟩ "usd" "eur").2.1.history,
      rec ∈ (⟨[], []⟩ : Store).history ∨ 0 < rec.rate) ∧
    (∀ p ∈ (getExchangeRate
        ⟨.fulfilled ⟨true, 2, "fixer", none⟩, .rejected, .rejected, "T8"⟩
        ⟨[], []⟩ "usd" "eur").2.1.cache,
      p ∈ (⟨[], []⟩ : Store).cache ∨ 0 < p.2.rate) :=
  persisted_rate_positive_of_positive_providers
    ⟨.fulfilled ⟨true, 2, "fixer", none⟩, .rejected, .rejected, "T8"⟩
    ⟨[], []⟩ "usd" "eur" (fun _ => by norm_num) trivial trivial
